import Mathlib

/-!
Verification development for the asynchronous job example in `wsgi.py`
(a Flask web application submitting work to a Celery worker).

Bytes are modelled as `Nat` values below 256, strings of the host language
as lists of Unicode code points (`Nat`), and the payload strings travelling
through the broker as `List Char`.
-/

deriving instance DecidableEq for Except

namespace Wsgi

/-! ## Payload codec: URL-safe base64 (`base64.urlsafe_b64encode` / `urlsafe_b64decode`) -/

/-- Character of the URL-safe base64 alphabet for a 6-bit value:
`A`-`Z`, `a`-`z`, `0`-`9`, `-`, `_`. -/
def b64Char (v : Nat) : Char :=
  if v < 26 then Char.ofNat (65 + v)
  else if v < 52 then Char.ofNat (97 + (v - 26))
  else if v < 62 then Char.ofNat (48 + (v - 52))
  else if v = 62 then '-'
  else '_'

/-- Value of a base64 data character as read by `urlsafe_b64decode`: the
function first translates `-`/`_` to `+`/`/` and then runs the standard
decoder, so all six of `+`, `/`, `-`, `_` (plus the alphanumerics) carry a
value; every other character yields `none` and is discarded by the lenient
scanner of `binascii.a2b_base64`. -/
def b64DecVal (c : Char) : Option Nat :=
  if 65 ≤ c.toNat ∧ c.toNat ≤ 90 then some (c.toNat - 65)
  else if 97 ≤ c.toNat ∧ c.toNat ≤ 122 then some (26 + (c.toNat - 97))
  else if 48 ≤ c.toNat ∧ c.toNat ≤ 57 then some (52 + (c.toNat - 48))
  else if c = '+' ∨ c = '-' then some 62
  else if c = '/' ∨ c = '_' then some 63
  else none

/-- `base64.urlsafe_b64encode`: groups of three bytes become four alphabet
characters; a final group of one or two bytes is padded with `=`. -/
def urlsafe_b64encode : List Nat → List Char
  | x :: y :: z :: rest =>
      b64Char (x / 4) :: b64Char (x % 4 * 16 + y / 16) ::
        b64Char (y % 16 * 4 + z / 64) :: b64Char (z % 64) :: urlsafe_b64encode rest
  | [x, y] => [b64Char (x / 4), b64Char (x % 4 * 16 + y / 16), b64Char (y % 16 * 4), '=']
  | [x] => [b64Char (x / 4), b64Char (x % 4 * 16), '=', '=']
  | [] => []

/-- Scanning pass of the lenient decoder: collect the 6-bit values of the
data characters appearing before the first `=`, discarding characters
outside the alphabet, and report whether a `=` terminator was seen. -/
def b64Scan : List Char → List Nat × Bool
  | [] => ([], false)
  | c :: rest =>
      if c = '=' then ([], true)
      else
        match b64DecVal c with
        | some v => (v :: (b64Scan rest).1, (b64Scan rest).2)
        | none => b64Scan rest

/-- Errors raised by `binascii.a2b_base64` (Python `binascii.Error`):
a leftover single data character, or a group of two or three data
characters with no padding. -/
inductive B64Error where
  | invalidLength
  | incorrectPadding
  deriving DecidableEq, Repr

/-- Recombine scanned 6-bit values into bytes: full groups of four give
three bytes; a trailing group of two or three values is accepted only when
a `=` terminator was present; a trailing single value is an error. -/
def b64Quads : List Nat → Bool → Except B64Error (List Nat)
  | a :: b :: c :: d :: rest, pad =>
      (b64Quads rest pad).map
        (fun bs => (a * 4 + b / 16) :: (b % 16 * 16 + c / 4) :: (c % 4 * 64 + d) :: bs)
  | [a, b, c], pad =>
      if pad then .ok [a * 4 + b / 16, b % 16 * 16 + c / 4] else .error .incorrectPadding
  | [a, b], pad =>
      if pad then .ok [a * 4 + b / 16] else .error .incorrectPadding
  | [_], _ => .error .invalidLength
  | [], _ => .ok []

/-- `base64.urlsafe_b64decode` on the UTF-8 bytes of a payload string.
Characters outside the ASCII range encode to bytes at or above 0x80, which
the lenient scanner discards just as it discards ASCII non-alphabet
characters, so the byte-level decoder is modelled directly on characters. -/
def urlsafe_b64decode (s : List Char) : Except B64Error (List Nat) :=
  b64Quads (b64Scan s).1 (b64Scan s).2

/-! ## UTF-8 decoding (`bytes.decode('utf-8')`) -/

/-- Strict UTF-8 decoding of a byte sequence into code points, as performed
by Python's `utf-8` codec: rejects continuation bytes in lead position,
overlong encodings (lead bytes `0xC0`/`0xC1`, short `0xE0`/`0xF0` forms),
surrogate code points (`0xED` followed by `0xA0` or above) and anything
beyond `U+10FFFF` (lead bytes above `0xF4`). `none` models a raised
`UnicodeDecodeError`. -/
def utf8Decode (l : List Nat) : Option (List Nat) :=
  match l with
  | [] => some []
  | b :: bs =>
      if b < 128 then (utf8Decode bs).map (b :: ·)
      else if b < 194 then none
      else if b < 224 then
        match bs with
        | c1 :: bs1 =>
            if 128 ≤ c1 ∧ c1 < 192 then
              (utf8Decode bs1).map (((b - 192) * 64 + (c1 - 128)) :: ·)
            else none
        | [] => none
      else if b < 240 then
        match bs with
        | c1 :: c2 :: bs2 =>
            if (128 ≤ c1 ∧ c1 < 192) ∧ (128 ≤ c2 ∧ c2 < 192) ∧
                (b = 224 → 160 ≤ c1) ∧ (b = 237 → c1 < 160) then
              (utf8Decode bs2).map
                (((b - 224) * 4096 + (c1 - 128) * 64 + (c2 - 128)) :: ·)
            else none
        | _ => none
      else if b < 245 then
        match bs with
        | c1 :: c2 :: c3 :: bs3 =>
            if (128 ≤ c1 ∧ c1 < 192) ∧ (128 ≤ c2 ∧ c2 < 192) ∧ (128 ≤ c3 ∧ c3 < 192) ∧
                (b = 240 → 144 ≤ c1) ∧ (b = 244 → c1 < 144) then
              (utf8Decode bs3).map
                (((b - 240) * 262144 + (c1 - 128) * 4096 + (c2 - 128) * 64 + (c3 - 128)) :: ·)
            else none
        | _ => none
      else none
termination_by structural l

/-! ## The task and the form handler -/

/-- Value returned by `my_task`: either the statistics mapping
`{'lines': ..., 'characters': ...}` or the string `'failed to decode.'`
returned in-band when the UTF-8 step raises `UnicodeDecodeError`. -/
inductive TaskValue where
  | stats (lines characters : Nat)
  | failedMsg (message : String)
  deriving DecidableEq, Repr

/-- `random.randint a b`: a uniformly drawn integer in the inclusive range
`[a, b]`, modelled as a function of an arbitrary seed so that every value
of the range is attained and results can be quantified over draws. -/
def randint (a b seed : Nat) : Nat := a + seed % (b - a + 1)

/-- The Celery task `my_task`: base64-decode the payload, then UTF-8-decode
the bytes. Only `UnicodeDecodeError` is caught (yielding the in-band string
`'failed to decode.'`); a `binascii.Error` from `urlsafe_b64decode`
propagates out of the function, modelled by `Except.error`. On the normal
paths the task sleeps `random.randint 5 10` seconds and returns; the slept
duration is the second component of the result. -/
def my_task (contents : List Char) (seed : Nat) : Except B64Error (TaskValue × Nat) :=
  match urlsafe_b64decode contents with
  | .error e => .error e
  | .ok bs =>
      let rv : TaskValue :=
        match utf8Decode bs with
        | none => .failedMsg "failed to decode."
        | some cps => .stats (cps.count 10) cps.length
      .ok (rv, randint 5 10 seed)

/-- `handle_form`: read the uploaded bytes and URL-safe-base64-encode them;
the Python code then decodes the ASCII result with `.decode("utf-8")`,
which is the identity at the character level, and wraps the string in a
1-tuple of task arguments (the tuple is dropped here). -/
def handle_form (contents : List Nat) : List Char :=
  urlsafe_b64encode contents

/-- The worker's decode step in `my_task` in isolation:
`urlsafe_b64decode` followed by `.decode('utf-8')`; `none` when either
step raises. -/
def decode_step (s : List Char) : Option (List Nat) :=
  match urlsafe_b64decode s with
  | .ok bs => utf8Decode bs
  | .error _ => none

/-- Membership in the URL-safe base64 output alphabet: letters, digits,
`-`, `_` and the padding character `=`; all of these are printable ASCII,
so in particular none is a control character. -/
def transportSafeChar (c : Char) : Bool :=
  (65 ≤ c.toNat && c.toNat ≤ 90) || (97 ≤ c.toNat && c.toNat ≤ 122) ||
    (48 ≤ c.toNat && c.toNat ≤ 57) || c == '-' || c == '_' || c == '='

/-! ## Job states and the Flask routes

The routes read a Celery `AsyncResult` for a task identifier. The backend
state visible through that handle is one of `PENDING` (initial, also for
unknown identifiers), `SUCCESS` (the task returned a value) or `FAILURE`
(the task raised an uncaught exception, recorded as a message). -/

/-- State of a job as recorded in the result backend and exposed through
`AsyncResult`: `pending` before settlement, `success` with the returned
value, `failure` with the message of the uncaught exception. -/
inductive JobState where
  | pending
  | success (value : TaskValue)
  | failure (message : String)
  deriving DecidableEq, Repr

/-- `AsyncResult.successful()`: true exactly when the state is `SUCCESS`. -/
def successful : JobState → Bool
  | .success _ => true
  | _ => false

/-- A terminal state: `SUCCESS` or `FAILURE`. -/
def isTerminal : JobState → Bool
  | .pending => false
  | _ => true

/-- `AsyncResult.status`: the state's name. -/
def statusName : JobState → String
  | .pending => "PENDING"
  | .success _ => "SUCCESS"
  | .failure _ => "FAILURE"

/-- `AsyncResult.result` as serialised into the JSON body: `None` (null)
while pending, the returned value on success, the exception message on
failure. -/
inductive ResField where
  | null
  | value (v : TaskValue)
  | exc (message : String)
  deriving DecidableEq, Repr

/-- The `result` attribute of an `AsyncResult` in the given state. -/
def taskResultField : JobState → ResField
  | .pending => .null
  | .success v => .value v
  | .failure m => .exc m

/-- JSON body produced by the `check` route: `result = none` means the key
is absent from the body, `result = some r` that it is present with value
`r` (possibly null). -/
structure CheckResponse where
  task_id : String
  status : String
  result : Option ResField
  deriving DecidableEq, Repr

/-- Whether the `result` field of a response is populated with an actual
value (present and not null). -/
def resultPopulated (r : CheckResponse) : Bool :=
  match r.result with
  | none => false
  | some .null => false
  | some _ => true

/-- The `/check/<task>` route: when the task is not successful it returns
`task_id`, `status` and `result`; when it is successful it returns only
`task_id` and `status`. -/
def check (id : String) (st : JobState) : CheckResponse :=
  if ¬ successful st then
    { task_id := id, status := statusName st, result := some (taskResultField st) }
  else
    { task_id := id, status := statusName st, result := none }

/-- Outcome of the `/results/<task>` route: either a flashed
not-yet-complete warning followed by a redirect to the home page (carrying
the task identifier in the message), or the rendered `results.html` page
for the task. -/
inductive ResultsResponse where
  | redirectHome (taskId : String)
  | render (st : JobState)
  deriving DecidableEq, Repr

/-- The `/results/<task>` route: when the task is not successful it
flashes a warning and redirects home; otherwise it renders the results
page. -/
def results (id : String) (st : JobState) : ResultsResponse :=
  if ¬ successful st then .redirectHome id
  else .render st

/-! ## The job store and its settlement discipline

Modelled from the spec: the Job Broker Channel and the Job Store live in
the external Celery machinery, not in `wsgi.py`; only their settlement
value is fixed by the source. Per the spec, a job identifier is never
reused, the payload is immutable after enqueue, and the only transition
out of `PENDING` is the worker's terminal write. A value returned by the
task settles the job as `SUCCESS`; an exception escaping the task settles
it as `FAILURE`. At-least-once delivery may settle the same identifier
more than once, always from the same immutable payload. -/

/-- The job store: payloads recorded at enqueue time and the state of each
job identifier. -/
structure Store where
  payload : Nat → Option (List Char)
  state : Nat → JobState

/-- Terminal state written by the worker for a payload: the returned value
(statistics or the in-band decode-failure string) settles as `SUCCESS`; an
escaped `binascii.Error` settles as `FAILURE` with the exception message.
The slept duration does not enter the stored value. -/
def settleOutcome (p : List Char) : JobState :=
  match my_task p 0 with
  | .ok (v, _) => .success v
  | .error _ => .failure "binascii.Error"

/-- The store before any submission: no payloads, every identifier
`PENDING`. -/
def initialStore : Store :=
  { payload := fun _ => none, state := fun _ => .pending }

/-- Transitions of the job system. `submit` enqueues a payload under a
fresh identifier (identifiers are never reused) and leaves all states
untouched (the new job reads as `PENDING`). `settle` is the worker's
terminal write for a delivered job: it recomputes the outcome from the
job's immutable payload; redelivery may fire it again for the same
identifier. Status queries are read-only and change nothing. -/
inductive Step : Store → Store → Prop where
  | submit {s s' : Store} (id : Nat) (p : List Char)
      (hfresh : s.payload id = none)
      (hp : s'.payload = fun j => if j = id then some p else s.payload j)
      (hs : s'.state = s.state) : Step s s'
  | settle {s s' : Store} (id : Nat) (p : List Char)
      (hdeliver : s.payload id = some p)
      (hp : s'.payload = s.payload)
      (hs : s'.state = fun j => if j = id then settleOutcome p else s.state j) : Step s s'

/-- Stores reachable from the empty store by submissions and settlements. -/
inductive Reachable : Store → Prop where
  | init : Reachable initialStore
  | step {s s' : Store} : Reachable s → Step s s' → Reachable s'

/-- Store invariant: every job is still `PENDING`, or has an enqueued
payload and carries exactly the settlement outcome of that payload. -/
def StoreInv (s : Store) : Prop :=
  ∀ id, s.state id = .pending ∨
    ∃ p, s.payload id = some p ∧ s.state id = settleOutcome p

/-! ## Concrete stores used to exercise the store model -/

/-- Store after submitting the empty payload under identifier 5. -/
def exampleStore1 : Store :=
  { payload := fun j => if j = 5 then some [] else none,
    state := fun _ => .pending }

/-- Store after the worker settles job 5. -/
def exampleStore2 : Store :=
  { payload := exampleStore1.payload,
    state := fun j => if j = 5 then settleOutcome [] else exampleStore1.state j }

/-- Store after a redelivery settles job 5 a second time. -/
def exampleStore3 : Store :=
  { payload := exampleStore2.payload,
    state := fun j => if j = 5 then settleOutcome [] else exampleStore2.state j }

/-! ## Lemmas about the base64 layer -/

/-- Each 6-bit value decodes back from its alphabet character, and no
alphabet character is the padding character; stated over `Fin 64` so that
it is settled by evaluation. -/
theorem b64DecVal_b64Char_fin :
    ∀ v : Fin 64, b64DecVal (b64Char v.val) = some v.val ∧ b64Char v.val ≠ '=' := by
  decide

/-- Every alphabet character is in the transport-safe set and is printable
ASCII; stated over `Fin 64` so that it is settled by evaluation. -/
theorem b64Char_safe_fin :
    ∀ v : Fin 64, transportSafeChar (b64Char v.val) = true ∧
      33 ≤ (b64Char v.val).toNat ∧ (b64Char v.val).toNat ≤ 126 := by
  decide

/-- Decoding inverts `b64Char` on 6-bit values. -/
theorem b64DecVal_b64Char {v : Nat} (h : v < 64) : b64DecVal (b64Char v) = some v :=
  (b64DecVal_b64Char_fin ⟨v, h⟩).1

/-- No alphabet character is the padding character. -/
theorem b64Char_ne_pad {v : Nat} (h : v < 64) : b64Char v ≠ '=' :=
  (b64DecVal_b64Char_fin ⟨v, h⟩).2

/-- Scanning past a data character collects its value. -/
theorem b64Scan_cons_data {c : Char} {v : Nat} (h : b64DecVal c = some v) (rest : List Char) :
    b64Scan (c :: rest) = (v :: (b64Scan rest).1, (b64Scan rest).2) := by
  have hc : c ≠ '=' := by
    intro he
    rw [he, (by decide : b64DecVal '=' = none)] at h
    exact Option.noConfusion h
  simp only [b64Scan]
  rw [if_neg hc, h]

/-- Scanning stops at the first padding character. -/
theorem b64Scan_pad (rest : List Char) : b64Scan ('=' :: rest) = ([], true) := rfl

/-- Round trip of the base64 layer: decoding an encoded byte sequence
recovers it exactly, with no error raised, for every sequence of bytes. -/
theorem b64_decode_encode {b : List Nat} (h : ∀ x ∈ b, x < 256) :
    urlsafe_b64decode (urlsafe_b64encode b) = .ok b := by
  unfold urlsafe_b64decode
  induction b using urlsafe_b64encode.induct with
  | case1 x y z rest ih =>
    have hx : x < 256 := h x (by simp)
    have hy : y < 256 := h y (by simp)
    have hz : z < 256 := h z (by simp)
    have ih' := ih fun a ha => h a (by simp [ha])
    rw [urlsafe_b64encode,
      b64Scan_cons_data (b64DecVal_b64Char (by omega)),
      b64Scan_cons_data (b64DecVal_b64Char (by omega)),
      b64Scan_cons_data (b64DecVal_b64Char (by omega)),
      b64Scan_cons_data (b64DecVal_b64Char (by omega)),
      b64Quads, ih']
    simp only [Except.map, Except.ok.injEq, List.cons.injEq]
    exact ⟨by omega, by omega, by omega, trivial⟩
  | case2 x y =>
    have hx : x < 256 := h x (by simp)
    have hy : y < 256 := h y (by simp)
    rw [urlsafe_b64encode,
      b64Scan_cons_data (b64DecVal_b64Char (by omega)),
      b64Scan_cons_data (b64DecVal_b64Char (by omega)),
      b64Scan_cons_data (b64DecVal_b64Char (by omega)),
      b64Scan_pad, b64Quads]
    simp only [if_pos, Except.ok.injEq, List.cons.injEq]
    exact ⟨by omega, by omega, trivial⟩
  | case3 x =>
    have hx : x < 256 := h x (by simp)
    rw [urlsafe_b64encode,
      b64Scan_cons_data (b64DecVal_b64Char (by omega)),
      b64Scan_cons_data (b64DecVal_b64Char (by omega)),
      b64Scan_pad, b64Quads]
    simp only [if_pos, Except.ok.injEq, List.cons.injEq]
    exact ⟨by omega, trivial⟩
  | case4 => rfl

/-! ## Lemmas about the job store -/

/-- Payload entries are immutable: once enqueued, every step preserves
them. -/
theorem step_payload_mono {s s' : Store} (hst : Step s s') {id : Nat} {p : List Char}
    (h : s.payload id = some p) : s'.payload id = some p := by
  cases hst with
  | submit id2 p2 hfresh hp hs =>
    rw [hp]
    by_cases he : id = id2
    · subst he; rw [hfresh] at h; exact Option.noConfusion h
    · simpa [he] using h
  | settle id2 p2 hdeliver hp hs => rw [hp]; exact h

/-- Every step preserves the store invariant. -/
theorem step_inv {s s' : Store} (hinv : StoreInv s) (hst : Step s s') : StoreInv s' := by
  intro id
  cases hst with
  | submit id2 p2 hfresh hp hs =>
    rw [hs]
    rcases hinv id with hpend | ⟨p, hpay, hstate⟩
    · exact Or.inl hpend
    · refine Or.inr ⟨p, ?_, hstate⟩
      rw [hp]
      by_cases he : id = id2
      · subst he; rw [hfresh] at hpay; exact Option.noConfusion hpay
      · simpa [he] using hpay
  | settle id2 p2 hdeliver hp hs =>
    rw [hs, hp]
    by_cases he : id = id2
    · subst he
      exact Or.inr ⟨p2, hdeliver, by simp⟩
    · rcases hinv id with hpend | ⟨p, hpay, hstate⟩
      · exact Or.inl (by simp [he, hpend])
      · exact Or.inr ⟨p, hpay, by simp [he, hstate]⟩

/-- Every reachable store satisfies the invariant. -/
theorem reachable_inv {s : Store} (h : Reachable s) : StoreInv s := by
  induction h with
  | init => exact fun id => Or.inl rfl
  | step hr hst ih => exact step_inv ih hst

/-- In an invariant-satisfying store, a single step never changes a
terminal state: a redelivered settlement recomputes the same outcome from
the immutable payload. -/
theorem step_terminal_fixed {s s' : Store} (hinv : StoreInv s) (hst : Step s s') {id : Nat}
    (hterm : isTerminal (s.state id) = true) : s'.state id = s.state id := by
  cases hst with
  | submit id2 p2 hfresh hp hs => rw [hs]
  | settle id2 p2 hdeliver hp hs =>
    rw [hs]
    by_cases he : id = id2
    · subst he
      rcases hinv id with hpend | ⟨p, hpay, hstate⟩
      · rw [hpend] at hterm; exact absurd hterm (by simp [isTerminal])
      · rw [hpay] at hdeliver
        have hpp : p = p2 := by injection hdeliver
        simp [hstate, hpp]
    · simp [he]

/-- Reachability is preserved along any sequence of steps. -/
theorem reachable_star {s s' : Store} (hr : Reachable s)
    (h : Relation.ReflTransGen Step s s') : Reachable s' := by
  induction h with
  | refl => exact hr
  | tail hab hbc ih => exact Reachable.step ih hbc

/-- Along any sequence of steps from a reachable store, a terminal state
never changes. -/
theorem star_terminal_fixed {s s' : Store} (hr : Reachable s)
    (hstar : Relation.ReflTransGen Step s s') {id : Nat}
    (hterm : isTerminal (s.state id) = true) : s'.state id = s.state id := by
  induction hstar with
  | refl => rfl
  | @tail b c hab hbc ih =>
    have hrb : Reachable b := reachable_star hr hab
    have htb : isTerminal (b.state id) = true := by rw [ih]; exact hterm
    rw [step_terminal_fixed (reachable_inv hrb) hbc htb, ih]

/-! ## Claims -/

/-- C1 (amended): the round trip of the payload codec equals UTF-8 text
decoding: the base64 layer is an exact inverse on every byte sequence, so
the worker's decode step applied to the submitter's encoded payload yields
the UTF-8 decoding of the original bytes — it recovers them exactly when
they are valid UTF-8 and fails precisely when they are not. -/
theorem c1_roundtrip_utf8 {b : List Nat} (h : ∀ x ∈ b, x < 256) :
    urlsafe_b64decode (handle_form b) = .ok b ∧
    decode_step (handle_form b) = utf8Decode b := by
  have hb : urlsafe_b64decode (handle_form b) = .ok b := b64_decode_encode h
  refine ⟨hb, ?_⟩
  unfold decode_step
  rw [hb]

/-- C1 witness: the codec round-trips the bytes of the ASCII text `hi`. -/
theorem c1_roundtrip_utf8_witness :
    decode_step (handle_form [104, 105]) = utf8Decode [104, 105] :=
  (c1_roundtrip_utf8 (by decide)).2

/-- C1 counterexample: for the single arbitrary binary byte `0xFF` the
decode step fails outright instead of yielding the byte back, so the
claimed round trip on every byte sequence is false. -/
theorem c1_binary_byte_fails :
    decode_step (handle_form [255]) = none ∧
    decode_step (handle_form [255]) ≠ some [255] := by
  decide

/-- C2 (amended): decode failures of the UTF-8 step are isolated — for
every payload whose base64 decode succeeds but whose UTF-8 decode fails,
`my_task` returns the in-band value `'failed to decode.'` without raising;
but a payload whose base64 decode fails raises an error that escapes
`my_task` uncaught (settled as `FAILURE` only by the surrounding worker
machinery). -/
theorem c2_unicode_failure_inband :
    (∀ (s : List Char) (seed : Nat) (bs : List Nat),
        urlsafe_b64decode s = .ok bs → utf8Decode bs = none →
          my_task s seed = .ok (.failedMsg "failed to decode.", randint 5 10 seed)) ∧
    (∀ (s : List Char) (seed : Nat) (e : B64Error),
        urlsafe_b64decode s = .error e → my_task s seed = .error e) := by
  constructor
  · intro s seed bs hb hu
    unfold my_task
    rw [hb]
    simp [hu]
  · intro s seed e hb
    unfold my_task
    rw [hb]

/-- C2 witness: the encoded form of the non-UTF-8 byte `0xFF` is settled
in-band as `'failed to decode.'`. -/
theorem c2_unicode_failure_inband_witness :
    my_task (handle_form [255]) 0 = .ok (.failedMsg "failed to decode.", randint 5 10 0) :=
  c2_unicode_failure_inband.1 (handle_form [255]) 0 [255] (by decide) (by decide)

/-- C2 counterexample: the payload `"A"` fails to decode, yet `my_task`
does not settle it in-band with a failure message — the base64 error
escapes the function, and at the store level the job settles as `FAILURE`
through the escaped exception rather than through the in-band path. -/
theorem c2_base64_error_escapes :
    my_task ['A'] 0 = .error .invalidLength ∧
    settleOutcome ['A'] = .failure "binascii.Error" := by
  decide

/-- C3: for every successfully decoded content, `my_task` returns the
statistics mapping whose `lines` field counts the newline characters
(code point 10) and whose `characters` field is the length of the decoded
string; scenario inputs `"a\nb\nc"` and the empty byte sequence follow by
instantiation. -/
theorem c3_statistics {b : List Nat} (hb : ∀ x ∈ b, x < 256) {s : List Nat}
    (hdec : utf8Decode b = some s) (seed : Nat) :
    my_task (handle_form b) seed = .ok (.stats (s.count 10) s.length, randint 5 10 seed) := by
  have hb2 : urlsafe_b64decode (handle_form b) = .ok b := b64_decode_encode hb
  unfold my_task
  rw [hb2]
  simp [hdec]

/-- C3 witness: submitting `"a\nb\nc"` yields `{lines: 2, characters: 5}`
and submitting the empty byte sequence yields `{lines: 0, characters: 0}`. -/
theorem c3_statistics_witness :
    my_task (handle_form [97, 10, 98, 10, 99]) 0 = .ok (.stats 2 5, randint 5 10 0) ∧
    my_task (handle_form []) 0 = .ok (.stats 0 0, randint 5 10 0) :=
  ⟨@c3_statistics [97, 10, 98, 10, 99] (by decide) [97, 10, 98, 10, 99] (by decide) 0,
    @c3_statistics [] (by decide) [] (by decide) 0⟩

/-- C4 (amended): the fetch-result route fails (flashes a not-yet-complete
warning and redirects home) if and only if the job's state is not
`SUCCESS`: it fails in the `PENDING` state and also in the terminal
`FAILURE` state, and renders the job's outcome exactly when the state is
`SUCCESS`. -/
theorem c4_results_success_only (id : String) (st : JobState) :
    (st = .pending → results id st = .redirectHome id) ∧
    (∀ m, st = .failure m → results id st = .redirectHome id) ∧
    (∀ v, st = .success v → results id st = .render (.success v)) ∧
    (results id st = .redirectHome id ↔ successful st = false) := by
  cases st <;> simp [results, successful]

/-- C4 witness: a pending job is not fetchable. -/
theorem c4_results_success_only_witness :
    results "t" JobState.pending = .redirectHome "t" :=
  (c4_results_success_only "t" .pending).1 rfl

/-- C4 counterexample: a job in the terminal `FAILURE` state is refused by
the results route even though its state is terminal, so "fails if and only
if the state is not terminal" is false. -/
theorem c4_failure_state_not_fetchable :
    results "t" (JobState.failure "boom") = .redirectHome "t" ∧
    isTerminal (JobState.failure "boom") = true := by
  decide

/-- C5: the check route always returns the job identifier and the state
name; its `result` field carries an actual value only in a terminal state,
and in the `PENDING` state the field is present but null — never a partial
or empty value. -/
theorem c5_check_shape (id : String) (st : JobState) :
    ((check id st).task_id = id ∧ (check id st).status = statusName st) ∧
    (resultPopulated (check id st) = true → isTerminal st = true) ∧
    (st = .pending → (check id st).result = some .null) := by
  cases st <;> simp [check, successful, resultPopulated, statusName, taskResultField, isTerminal]

/-- C5 witness: for a pending job the `result` field is null. -/
theorem c5_check_shape_witness :
    (check "t" JobState.pending).result = some ResField.null :=
  (c5_check_shape "t" .pending).2.2 rfl

/-- C6: once a job's state is terminal in a reachable store, any further
submissions and (re)settlements leave it unchanged, so every subsequent
status query returns the same terminal state — never `PENDING` and never
the other terminal state. -/
theorem c6_terminal_monotonic {s s' : Store} (hr : Reachable s)
    (hstar : Relation.ReflTransGen Step s s') (id : Nat)
    (hterm : isTerminal (s.state id) = true) :
    s'.state id = s.state id ∧
    ∀ t, check t (s'.state id) = check t (s.state id) := by
  have h := star_terminal_fixed hr hstar hterm
  exact ⟨h, fun t => by rw [h]⟩

/-- C6 witness: after job 5 is submitted and settled, a redelivered
settlement leaves its terminal state unchanged. -/
theorem c6_terminal_monotonic_witness :
    exampleStore3.state 5 = exampleStore2.state 5 :=
  (c6_terminal_monotonic
    (Reachable.step
      (Reachable.step Reachable.init (@Step.submit initialStore exampleStore1 5 [] rfl rfl rfl))
      (@Step.settle exampleStore1 exampleStore2 5 [] rfl rfl rfl))
    (Relation.ReflTransGen.single (@Step.settle exampleStore2 exampleStore3 5 [] rfl rfl rfl))
    5 (by decide)).1

/-- C7: every completing execution of `my_task` — on the statistics path
and on the in-band decode-failure path alike — sleeps for the same draw
`randint 5 10` of the seed, an integer between 5 and 10 inclusive, and
every duration in that range is attained by some draw. -/
theorem c7_latency_range {contents : List Char} {seed : Nat} {rv : TaskValue} {d : Nat}
    (h : my_task contents seed = .ok (rv, d)) :
    (d = randint 5 10 seed ∧ 5 ≤ d ∧ d ≤ 10) ∧
    ∀ k, 5 ≤ k → k ≤ 10 → randint 5 10 (k - 5) = k := by
  refine ⟨?_, fun k hk1 hk2 => by unfold randint; omega⟩
  unfold my_task at h
  cases hb : urlsafe_b64decode contents with
  | error e => rw [hb] at h; exact absurd h (by simp)
  | ok bs =>
    rw [hb] at h
    simp only [Except.ok.injEq, Prod.mk.injEq] at h
    have hd : d = randint 5 10 seed := h.2.symm
    refine ⟨hd, ?_, ?_⟩ <;> rw [hd] <;> unfold randint <;> omega

/-- C7 witness: an execution on the decode-failure path sleeps 8 seconds
for seed 3, within the bounds. -/
theorem c7_latency_range_witness : 8 = randint 5 10 3 ∧ 5 ≤ 8 ∧ 8 ≤ 10 :=
  (@c7_latency_range (handle_form [255]) 3 (.failedMsg "failed to decode.") 8 (by decide)).1

/-- C8: every character that `handle_form` emits for any byte sequence is
in the URL-safe base64 output alphabet, and is printable ASCII — in
particular no control character is embedded. -/
theorem c8_encode_transport_safe {b : List Nat} (h : ∀ x ∈ b, x < 256) :
    ∀ c ∈ handle_form b, transportSafeChar c = true ∧ 33 ≤ c.toNat ∧ c.toNat ≤ 126 := by
  unfold handle_form
  induction b using urlsafe_b64encode.induct with
  | case1 x y z rest ih =>
    have hx : x < 256 := h x (by simp)
    have hy : y < 256 := h y (by simp)
    have hz : z < 256 := h z (by simp)
    have ih' := ih fun a ha => h a (by simp [ha])
    intro c hc
    rw [urlsafe_b64encode] at hc
    simp only [List.mem_cons] at hc
    rcases hc with rfl | rfl | rfl | rfl | hc
    · exact b64Char_safe_fin ⟨x / 4, by omega⟩
    · exact b64Char_safe_fin ⟨x % 4 * 16 + y / 16, by omega⟩
    · exact b64Char_safe_fin ⟨y % 16 * 4 + z / 64, by omega⟩
    · exact b64Char_safe_fin ⟨z % 64, by omega⟩
    · exact ih' c hc
  | case2 x y =>
    have hx : x < 256 := h x (by simp)
    have hy : y < 256 := h y (by simp)
    intro c hc
    rw [urlsafe_b64encode] at hc
    simp only [List.mem_cons] at hc
    rcases hc with rfl | rfl | rfl | rfl | hc
    · exact b64Char_safe_fin ⟨x / 4, by omega⟩
    · exact b64Char_safe_fin ⟨x % 4 * 16 + y / 16, by omega⟩
    · exact b64Char_safe_fin ⟨y % 16 * 4, by omega⟩
    · decide
    · exact absurd hc (by simp)
  | case3 x =>
    have hx : x < 256 := h x (by simp)
    intro c hc
    rw [urlsafe_b64encode] at hc
    simp only [List.mem_cons] at hc
    rcases hc with rfl | rfl | rfl | rfl | hc
    · exact b64Char_safe_fin ⟨x / 4, by omega⟩
    · exact b64Char_safe_fin ⟨x % 4 * 16, by omega⟩
    · decide
    · decide
    · exact absurd hc (by simp)
  | case4 =>
    intro c hc
    exact absurd hc (by simp [urlsafe_b64encode])

/-- C8 witness: the encoding of the bytes of `hi` contains the character
`a`, which is alphabet material and printable. -/
theorem c8_encode_transport_safe_witness :
    transportSafeChar 'a' = true ∧ 33 ≤ 'a'.toNat ∧ 'a'.toNat ≤ 126 :=
  c8_encode_transport_safe (b := [104, 105]) (by decide) 'a' (by decide)

/-- C9 (implicit): the value `my_task` returns — statistics mapping,
in-band failure string, or escaping error — depends only on the payload,
not on the drawn sleep duration: two executions on the same contents with
different draws return equal values. -/
theorem c9_deterministic_result (contents : List Char) (s1 s2 : Nat) :
    (my_task contents s1).map Prod.fst = (my_task contents s2).map Prod.fst := by
  unfold my_task
  cases urlsafe_b64decode contents <;> rfl

/-- C10 (implicit): `my_task` catches only `UnicodeDecodeError`; the
payloads `"A"` (length not congruent to a valid base64 quantum) and
`"AB"` (missing padding) make `urlsafe_b64decode` raise a
`binascii.Error` that escapes the function for every draw, instead of
being converted into the in-band `'failed to decode.'` outcome. -/
theorem c10_binascii_propagates (seed : Nat) :
    my_task ['A'] seed = .error .invalidLength ∧
    my_task ['A', 'B'] seed = .error .incorrectPadding := by
  constructor
  · unfold my_task
    rw [(by decide : urlsafe_b64decode ['A'] = Except.error B64Error.invalidLength)]
  · unfold my_task
    rw [(by decide : urlsafe_b64decode ['A', 'B'] = Except.error B64Error.incorrectPadding)]

end Wsgi
